import Mathlib

/-!
Verification of the yt RAMSES field-handler and Rockstar halo-catalog core.

This file is a shallow embedding of the two source modules

  * `yt/frontends/ramses/field_handlers.py`
      (handler registry, `HydroFieldFileHandler.any_exist`,
       `HydroFieldFileHandler.get_field_list` with its padding loop), and
  * `yt/frontends/halo_catalogs/data_structures.py`
      (`RockstarStaticOutput._is_valid`, `RockstarStaticOutput._parse_parameter_file`),

followed by theorems settling the specification claims about them.
Machine integers are modelled as `ℕ`, Python floats as `ℚ` (the claims under
study are about which expressions are computed, not about rounding), Python
exceptions as `Except PyError`, the process-wide Python `set` as a `Finset`,
and the directory contents seen by `glob` as a `List String` of file names.
-/

/-- The Python exception kinds raised by the embedded code
(`get_field_list` raises `ValueError` when `nvar < 5`). -/
inductive PyError where
  | valueError
deriving DecidableEq

/-! ### Decimal rendering, embedding Python's `str(n)` and `'%05d' % n`

`get_field_list` builds padding names with `"var" + str(len(fields))` and
`__init__` formats domain ids with `{iout:05d}`/`{icpu:05d}`.  We embed
Python's decimal rendering of a non-negative integer with an explicitly
fuelled digit extractor so that the kernel can evaluate it. -/

/-- Little-endian base-10 digits of `n`; `fuel` bounds the recursion depth and
`digitsAux fuel n` is the digit list of `n` whenever `n ≤ fuel` (`[]` for 0). -/
def digitsAux : ℕ → ℕ → List ℕ
  | 0, _ => []
  | fuel + 1, n => if n = 0 then [] else n % 10 :: digitsAux fuel (n / 10)

/-- Little-endian base-10 digits of `n` (empty for `n = 0`). -/
def pyDigits (n : ℕ) : List ℕ := digitsAux n n

/-- The numeric value of a little-endian digit list (inverse of `pyDigits`). -/
def unDigits : List ℕ → ℕ
  | [] => 0
  | d :: ds => d + 10 * unDigits ds

/-- Python's `str(n)` for a non-negative integer: most-significant digit
first, no leading zeros, and `"0"` for zero. -/
def pyStr (n : ℕ) : String :=
  if n = 0 then "0" else String.mk ((pyDigits n).reverse.map Nat.digitChar)

/-- The numeric value encoded by a decimal string (inverse of `pyStr`). -/
def pyStrVal (s : String) : ℕ :=
  unDigits (s.data.reverse.map (fun c => c.toNat - 48))

/-- Python's `'%05d' % n`: the decimal rendering left-padded with `'0'`
to a minimum width of five characters. -/
def fmt5 (n : ℕ) : String :=
  String.mk (List.replicate (5 - (pyStr n).length) '0') ++ pyStr n

/-! ### `HydroFieldFileHandler.get_field_list`: schema inference -/

/-- The synthetic padding name `"var" + str(k)` appended by the padding loop. -/
def varName (k : ℕ) : String := "var" ++ pyStr k

/-- The padding loop at the end of `get_field_list`:
`while len(fields) < nvar: fields.append("var" + str(len(fields)))`. -/
def pad_fields (fields : List String) (nvar : ℕ) : List String :=
  if fields.length < nvar then pad_fields (fields ++ [varName fields.length]) nvar
  else fields
termination_by nvar - fields.length
decreasing_by simp only [List.length_append, List.length_cons, List.length_nil]; omega

/-- The decision table of `get_field_list` (lines 168–203): the ordered field
list chosen from `nvar` and the presence of a companion `info_rt_*.txt` file,
before padding.  The source uses a sequence of `if` statements whose guards
partition `nvar ≥ 5`, rendered here as an equivalent `if`/`else` chain;
`nvar < 5` without RT raises `ValueError`. -/
def hydro_decision_fields (nvar : ℕ) (rt_flag : Bool) : Except PyError (List String) :=
  if rt_flag then
    if nvar < 10 then
      .ok ["Density", "x-velocity", "y-velocity", "z-velocity", "Pressure",
           "Metallicity", "HII", "HeII", "HeIII"]
    else
      .ok ["Density", "x-velocity", "y-velocity", "z-velocity", "Pres_IR",
           "Pressure", "Metallicity", "HII", "HeII", "HeIII"]
  else if nvar < 5 then
    .error PyError.valueError
  else if nvar = 5 then
    .ok ["Density", "x-velocity", "y-velocity", "z-velocity", "Pressure"]
  else if nvar < 11 then
    .ok ["Density", "x-velocity", "y-velocity", "z-velocity", "Pressure", "Metallicity"]
  else if nvar = 11 then
    .ok ["Density", "x-velocity", "y-velocity", "z-velocity",
         "x-Bfield-left", "y-Bfield-left", "z-Bfield-left",
         "x-Bfield-right", "y-Bfield-right", "z-Bfield-right", "Pressure"]
  else
    .ok ["Density", "x-velocity", "y-velocity", "z-velocity",
         "x-Bfield-left", "y-Bfield-left", "z-Bfield-left",
         "x-Bfield-right", "y-Bfield-right", "z-Bfield-right", "Pressure", "Metallicity"]

/-- `HydroFieldFileHandler.get_field_list`, as a function of the decoded
header count `nvar` and the RT probe `rt_flag`: the decision table followed by
the padding loop.  (The early return when the first domain file is absent, and
the reading of the header itself, happen before `nvar` exists and are outside
the claims under study.) -/
def get_field_list (nvar : ℕ) (rt_flag : Bool) : Except PyError (List String) :=
  match hydro_decision_fields nvar rt_flag with
  | .error e => .error e
  | .ok fields => .ok (pad_fields fields nvar)

/-! ### `HydroFieldFileHandler.any_exist` and the per-domain file name

`any_exist` globs `hydro_?????.out?????` next to the dataset's parameter
file, while the class attribute `fname = 'part_{iout:05d}.out{icpu:05d}'` is
what `__init__` uses to resolve a domain file path.  Directory contents are
modelled as the list of file names in the dataset directory. -/

/-- A glob matcher for patterns built from literal characters and the
single-character wildcard `?` (which matches any character except the path
separator `/`); the pattern used by `any_exist` contains no other wildcard. -/
def globMatch : List Char → List Char → Bool
  | [], [] => true
  | p :: ps, c :: cs => (if p = '?' then c != '/' else p == c) && globMatch ps cs
  | _, _ => false

/-- The glob pattern `'hydro_?????.out?????'` used by `any_exist`. -/
def hydroGlobPat : String := "hydro_?????.out?????"

/-- `HydroFieldFileHandler.any_exist`: true iff some file in the dataset
directory matches the glob `hydro_?????.out?????`
(`len(glob.glob(files)) > 0`). -/
def any_exist (files : List String) : Bool :=
  files.any (fun f => globMatch hydroGlobPat.data f.data)

/-- The per-domain file name resolved by `FieldFileHandler.__init__` from the
class attribute `fname = 'part_{iout:05d}.out{icpu:05d}'` of
`HydroFieldFileHandler` (the directory part is common to all candidates and
omitted). -/
def hydro_fname (iout icpu : ℕ) : String :=
  "part_" ++ fmt5 iout ++ ".out" ++ fmt5 icpu

/-- The hydro-style per-domain file name `hydro_{iout:05d}.out{icpu:05d}`,
the naming scheme `get_field_list` actually opens (`basename % "hydro"`). -/
def hydro_style_name (iout icpu : ℕ) : String :=
  "hydro_" ++ fmt5 iout ++ ".out" ++ fmt5 icpu

/-! ### The process-wide handler registry (`FIELD_HANDLERS`, metaclass) -/

/-- A handler class descriptor: its name and its `ftype` class attribute
(`None` on the abstract base `FieldFileHandler`, a string on concrete
variants). -/
structure ClassDesc where
  name : String
  ftype : Option String
deriving DecidableEq

/-- `register_field_handler(ph)`: `FIELD_HANDLERS.add(ph)` — Python `set`
insertion, modelled on `Finset`. -/
def register_field_handler (ph : ClassDesc) (handlers : Finset ClassDesc) : Finset ClassDesc :=
  insert ph handlers

/-- `get_field_handlers()`: returns the process-wide set. -/
def get_field_handlers (handlers : Finset ClassDesc) : Finset ClassDesc :=
  handlers

/-- `RAMSESFieldFileHandlerRegister.__new__`: creating a class registers it
iff its `ftype` attribute `is not None`. -/
def metaclass_new (cls : ClassDesc) (handlers : Finset ClassDesc) : Finset ClassDesc :=
  if cls.ftype ≠ none then register_field_handler cls handlers else handlers

/-- Evaluating a sequence of class bodies under the metaclass, starting from
a given registry state. -/
def define_classes (handlers : Finset ClassDesc) (classes : List ClassDesc) : Finset ClassDesc :=
  classes.foldl (fun s c => metaclass_new c s) handlers

/-- The abstract base class `FieldFileHandler`, whose `ftype` is `None`. -/
def FieldFileHandlerCls : ClassDesc := ⟨"FieldFileHandler", none⟩

/-- The concrete variant `HydroFieldFileHandler`, whose `ftype` is
`'ramses'`. -/
def HydroFieldFileHandlerCls : ClassDesc := ⟨"HydroFieldFileHandler", some "ramses"⟩

/-! ### Rockstar single-header variant -/

/-- Modelled from the spec: the fixed-layout Rockstar header (`header_dt`
lives in `yt/frontends/halo_catalogs/definitions.py`, which is not part of
the sources under study); per §4.6 it carries a magic number, a scale factor,
cosmological density parameters, a Hubble constant and a box size.  Only the
fields the embedded code reads are modelled. -/
structure RockstarHeader where
  magic : ℕ
  scale : ℚ
  Om : ℚ
  Ol : ℚ
  h0 : ℚ
  box_size : ℚ

/-- The magic constant compared by `RockstarStaticOutput._is_valid`. -/
def rockstarMagic : ℕ := 18077126535843729616

/-- Python's `str.endswith`, as a suffix test on the character list. -/
def pyEndsWith (s suf : String) : Bool :=
  List.isSuffixOf suf.data s.data

/-- `RockstarStaticOutput._is_valid`: return `False` for a path not ending in
`.bin` (without touching the file); otherwise read the header (`read_cattrs`,
an external collaborator modelled by the `readHeader` argument, which may
itself fail) and return whether its magic field equals the constant. -/
def is_valid (path : String) (readHeader : Except PyError RockstarHeader) :
    Except PyError Bool :=
  if pyEndsWith path ".bin" = false then .ok false
  else
    match readHeader with
    | .error e => .error e
    | .ok header => if header.magic = rockstarMagic then .ok true else .ok false

/-- The dataset attributes assigned by the cosmology section of
`RockstarStaticOutput._parse_parameter_file` (bookkeeping attributes not
touched by the claims — `dimensionality`, `filename_template`, domain edges —
are omitted). -/
structure RockstarDatasetAttrs where
  cosmological_simulation : ℕ
  current_redshift : ℚ
  hubble_constant : ℚ
  omega_lambda : ℚ
  omega_matter : ℚ
  current_time : ℚ

/-- The cosmology section of `RockstarStaticOutput._parse_parameter_file`:
redshift from the header's scale factor, cosmological parameters copied from
the header, and `current_time` obtained from the external `Cosmology`
collaborator — modelled by the argument `universeAge`, taking the constructor
arguments `(hubble_constant * 100, omega_matter, omega_lambda)` and the
redshift passed to `UniverseAge`. -/
def parse_parameter_file (hvals : RockstarHeader)
    (universeAge : ℚ → ℚ → ℚ → ℚ → ℚ) : RockstarDatasetAttrs :=
  let current_redshift := 1 / hvals.scale - 1
  let hubble_constant := hvals.h0
  let omega_lambda := hvals.Ol
  let omega_matter := hvals.Om
  let current_time := universeAge (hubble_constant * 100) omega_matter omega_lambda
    current_redshift
  { cosmological_simulation := 1
    current_redshift := current_redshift
    hubble_constant := hubble_constant
    omega_lambda := omega_lambda
    omega_matter := omega_matter
    current_time := current_time }

/-! ## Supporting lemmas -/

theorem unDigits_digitsAux : ∀ (fuel n : ℕ), n ≤ fuel → unDigits (digitsAux fuel n) = n := by
  intro fuel
  induction fuel with
  | zero => intro n hn; interval_cases n; rfl
  | succ f ih =>
    intro n hn
    by_cases h0 : n = 0
    · subst h0; simp [digitsAux, unDigits]
    · have hdiv : n / 10 ≤ f := by
        have : n / 10 < n := Nat.div_lt_self (Nat.pos_of_ne_zero h0) (by norm_num)
        omega
      simp only [digitsAux, if_neg h0, unDigits, ih _ hdiv]
      omega

theorem digitsAux_lt_ten : ∀ (fuel n : ℕ), ∀ d ∈ digitsAux fuel n, d < 10 := by
  intro fuel
  induction fuel with
  | zero => intro n d hd; simp [digitsAux] at hd
  | succ f ih =>
    intro n d hd
    by_cases h0 : n = 0
    · subst h0; simp [digitsAux] at hd
    · simp only [digitsAux, if_neg h0, List.mem_cons] at hd
      rcases hd with h | h
      · subst h; exact Nat.mod_lt _ (by norm_num)
      · exact ih _ _ h

theorem digitsAux_length_le : ∀ (fuel n k : ℕ), n < 10 ^ k → (digitsAux fuel n).length ≤ k := by
  intro fuel
  induction fuel with
  | zero => intro n k _; simp [digitsAux]
  | succ f ih =>
    intro n k hk
    by_cases h0 : n = 0
    · subst h0; simp [digitsAux]
    · have hkpos : 0 < k := by
        rcases Nat.eq_zero_or_pos k with h | h
        · subst h; simp at hk; omega
        · exact h
      have hdiv : n / 10 < 10 ^ (k - 1) := by
        rw [Nat.div_lt_iff_lt_mul (by norm_num : (0:ℕ) < 10)]
        calc n < 10 ^ k := hk
          _ = 10 ^ (k - 1) * 10 := by
            rw [← pow_succ]
            congr 1
            omega
      simp only [digitsAux, if_neg h0, List.length_cons]
      have := ih (n / 10) (k - 1) hdiv
      omega

theorem pyStrVal_pyStr (n : ℕ) : pyStrVal (pyStr n) = n := by
  by_cases h0 : n = 0
  · subst h0; rfl
  · have hlt := digitsAux_lt_ten n n
    simp only [pyStr, if_neg h0, pyStrVal, pyDigits]
    rw [List.map_reverse, List.map_map, List.map_reverse, List.reverse_reverse]
    have hmap : (digitsAux n n).map ((fun c => c.toNat - 48) ∘ Nat.digitChar)
        = (digitsAux n n).map id := by
      apply List.map_congr_left
      intro d hd
      have hd10 : d < 10 := hlt d hd
      have : ∀ d < 10, (Nat.digitChar d).toNat - 48 = d := by decide
      simpa using this d hd10
    rw [hmap, List.map_id]
    exact unDigits_digitsAux n n le_rfl

theorem pyStr_injective : Function.Injective pyStr := by
  intro m n h
  have := pyStrVal_pyStr m
  rw [h, pyStrVal_pyStr] at this
  omega

theorem pad_fields_eq (fields : List String) (nvar : ℕ) :
    pad_fields fields nvar
      = fields ++ (List.range' fields.length (nvar - fields.length)).map varName := by
  generalize hg : nvar - fields.length = n
  induction n generalizing fields with
  | zero =>
    rw [pad_fields, if_neg (by omega)]
    simp [hg]
  | succ n ih =>
    have hlt : fields.length < nvar := by omega
    rw [pad_fields, if_pos hlt]
    rw [ih (fields ++ [varName fields.length]) (by simp; omega)]
    have hn : nvar - (fields.length + 1) = n := by omega
    simp only [List.length_append, List.length_cons, List.length_nil, Nat.add_zero, hn, hg,
      List.range'_succ, List.map_cons, List.append_assoc, List.cons_append, List.nil_append]

/-! ## Claim theorems -/

/-- **C1**: with no RT companion file and `nvar ≥ 5`, the decision table of
`get_field_list` produces, before padding: for `nvar = 5` the base list
`[Density, x-velocity, y-velocity, z-velocity, Pressure]`; for `5 < nvar < 11`
that list with `Metallicity` appended; for `nvar = 11` the base with the six
`Bfield` components inserted before `Pressure`; and for `nvar > 11` that
11-field list with `Metallicity` appended — and `get_field_list` returns the
chosen list after padding. -/
theorem hydro_field_list_no_rt_decision_table (nvar : ℕ) (h : 5 ≤ nvar) :
    (nvar = 5 →
      hydro_decision_fields nvar false =
        .ok ["Density", "x-velocity", "y-velocity", "z-velocity", "Pressure"]) ∧
    (5 < nvar → nvar < 11 →
      hydro_decision_fields nvar false =
        .ok (["Density", "x-velocity", "y-velocity", "z-velocity", "Pressure"] ++
             ["Metallicity"])) ∧
    (nvar = 11 →
      hydro_decision_fields nvar false =
        .ok (["Density", "x-velocity", "y-velocity", "z-velocity"] ++
             ["x-Bfield-left", "y-Bfield-left", "z-Bfield-left",
              "x-Bfield-right", "y-Bfield-right", "z-Bfield-right"] ++ ["Pressure"])) ∧
    (11 < nvar →
      hydro_decision_fields nvar false =
        .ok ((["Density", "x-velocity", "y-velocity", "z-velocity"] ++
              ["x-Bfield-left", "y-Bfield-left", "z-Bfield-left",
               "x-Bfield-right", "y-Bfield-right", "z-Bfield-right"] ++ ["Pressure"]) ++
             ["Metallicity"])) ∧
    (∀ fields, hydro_decision_fields nvar false = .ok fields →
      get_field_list nvar false = .ok (pad_fields fields nvar)) := by
  refine ⟨?_, ?_, ?_, ?_, ?_⟩
  · rintro rfl; rfl
  · intro h5 h11
    have h1 : ¬ nvar < 5 := by omega
    have h2 : nvar ≠ 5 := by omega
    simp [hydro_decision_fields, h1, h2, h11]
  · rintro rfl; rfl
  · intro h11
    have h1 : ¬ nvar < 5 := by omega
    have h2 : nvar ≠ 5 := by omega
    have h3 : ¬ nvar < 11 := by omega
    have h4 : nvar ≠ 11 := by omega
    simp [hydro_decision_fields, h1, h2, h3, h4]
  · intro fields hf
    simp [get_field_list, hf]

/-- Witness for C1 at `nvar = 11`: the MHD branch, for which padding is the
identity. -/
theorem hydro_field_list_no_rt_decision_table_witness :
    hydro_decision_fields 11 false =
      .ok (["Density", "x-velocity", "y-velocity", "z-velocity"] ++
           ["x-Bfield-left", "y-Bfield-left", "z-Bfield-left",
            "x-Bfield-right", "y-Bfield-right", "z-Bfield-right"] ++ ["Pressure"]) ∧
    get_field_list 11 false =
      .ok ["Density", "x-velocity", "y-velocity", "z-velocity",
           "x-Bfield-left", "y-Bfield-left", "z-Bfield-left",
           "x-Bfield-right", "y-Bfield-right", "z-Bfield-right", "Pressure"] := by
  have h := hydro_field_list_no_rt_decision_table 11 (by norm_num)
  have hd := h.2.2.1 rfl
  refine ⟨hd, ?_⟩
  rw [h.2.2.2.2 _ hd, pad_fields_eq]
  simp

/-- **C2**: with an RT companion file present, the decision table of
`get_field_list` produces, before padding: for `nvar < 10` the 9-field RT
list; otherwise the same list with `Pres_IR` inserted immediately before
`Pressure` — and `get_field_list` returns the chosen list after padding. -/
theorem hydro_field_list_rt_decision_table (nvar : ℕ) :
    (nvar < 10 →
      hydro_decision_fields nvar true =
        .ok ["Density", "x-velocity", "y-velocity", "z-velocity", "Pressure",
             "Metallicity", "HII", "HeII", "HeIII"]) ∧
    (10 ≤ nvar →
      hydro_decision_fields nvar true =
        .ok (["Density", "x-velocity", "y-velocity", "z-velocity", "Pressure",
              "Metallicity", "HII", "HeII", "HeIII"].take 4 ++ ["Pres_IR"] ++
             ["Density", "x-velocity", "y-velocity", "z-velocity", "Pressure",
              "Metallicity", "HII", "HeII", "HeIII"].drop 4)) ∧
    (∀ fields, hydro_decision_fields nvar true = .ok fields →
      get_field_list nvar true = .ok (pad_fields fields nvar)) := by
  refine ⟨?_, ?_, ?_⟩
  · intro h10
    simp [hydro_decision_fields, h10]
  · intro h10
    have h : ¬ nvar < 10 := by omega
    simp [hydro_decision_fields, h]
  · intro fields hf
    simp [get_field_list, hf]

/-- Witness for C2 at `nvar = 9` (no IR trapping) and `nvar = 12`
(IR trapping). -/
theorem hydro_field_list_rt_decision_table_witness :
    hydro_decision_fields 9 true =
      .ok ["Density", "x-velocity", "y-velocity", "z-velocity", "Pressure",
           "Metallicity", "HII", "HeII", "HeIII"] ∧
    hydro_decision_fields 12 true =
      .ok (["Density", "x-velocity", "y-velocity", "z-velocity", "Pressure",
            "Metallicity", "HII", "HeII", "HeIII"].take 4 ++ ["Pres_IR"] ++
           ["Density", "x-velocity", "y-velocity", "z-velocity", "Pressure",
            "Metallicity", "HII", "HeII", "HeIII"].drop 4) ∧
    get_field_list 9 true =
      .ok (pad_fields ["Density", "x-velocity", "y-velocity", "z-velocity", "Pressure",
           "Metallicity", "HII", "HeII", "HeIII"] 9) :=
  ⟨(hydro_field_list_rt_decision_table 9).1 (by norm_num),
   (hydro_field_list_rt_decision_table 12).2.1 (by norm_num),
   (hydro_field_list_rt_decision_table 9).2.2 _
     ((hydro_field_list_rt_decision_table 9).1 (by norm_num))⟩

/-- **C3**: the padding loop appends `var<index>` names, with `<index>` the
0-based final position of each appended field, until the list length reaches
`nvar`; a list already at least `nvar` long is returned unchanged (never
truncated); and in particular `nvar = 7` without RT yields the 6-field list
plus `var6`. -/
theorem pad_fields_spec (fields : List String) (nvar : ℕ) :
    (fields.length < nvar →
      pad_fields fields nvar
        = fields ++ (List.range' fields.length (nvar - fields.length)).map varName ∧
      (pad_fields fields nvar).length = nvar ∧
      ∀ i : ℕ, fields.length ≤ i → i < nvar →
        (pad_fields fields nvar)[i]? = some (varName i)) ∧
    (nvar ≤ fields.length → pad_fields fields nvar = fields) ∧
    get_field_list 7 false =
      .ok ["Density", "x-velocity", "y-velocity", "z-velocity", "Pressure",
           "Metallicity", "var6"] := by
  refine ⟨?_, ?_, ?_⟩
  · intro hlt
    refine ⟨pad_fields_eq _ _, ?_, ?_⟩
    · rw [pad_fields_eq]
      simp only [List.length_append, List.length_map, List.length_range']
      omega
    · intro i hi1 hi2
      rw [pad_fields_eq, List.getElem?_append_right (by simpa using hi1),
        List.getElem?_map,
        List.getElem?_range' _ _ (show i - fields.length < nvar - fields.length by omega)]
      have his : fields.length + (i - fields.length) = i := by omega
      simp [his]
  · intro hge
    rw [pad_fields_eq]
    simp [Nat.sub_eq_zero_of_le hge]
  · have hpad : pad_fields ["Density", "x-velocity", "y-velocity", "z-velocity", "Pressure",
        "Metallicity"] 7 = ["Density", "x-velocity", "y-velocity", "z-velocity", "Pressure",
        "Metallicity", "var6"] := by
      rw [pad_fields_eq]
      decide
    show Except.ok (pad_fields ["Density", "x-velocity", "y-velocity", "z-velocity", "Pressure",
        "Metallicity"] 7) = _
    rw [hpad]

/-- Witness for C3: padding a 2-element list to length 4 and the unchanged
case, instantiated concretely. -/
theorem pad_fields_spec_witness :
    pad_fields ["Density", "Pressure"] 4 = ["Density", "Pressure", "var2", "var3"] ∧
    pad_fields ["Density", "Pressure"] 1 = ["Density", "Pressure"] := by
  have h4 := (pad_fields_spec ["Density", "Pressure"] 4).1 (by norm_num)
  have h1 := (pad_fields_spec ["Density", "Pressure"] 1).2.1 (by norm_num)
  refine ⟨?_, h1⟩
  rw [h4.1]
  decide

/-- **C5**: without RT, `nvar < 5` makes `get_field_list` raise (the embedded
`ValueError`, the structural `FormatError` of the spec) and return no field
list. -/
theorem get_field_list_nvar_lt_five_error (nvar : ℕ) (h : nvar < 5) :
    get_field_list nvar false = .error PyError.valueError ∧
    ∀ fields, get_field_list nvar false ≠ .ok fields := by
  have hd : hydro_decision_fields nvar false = .error PyError.valueError := by
    simp [hydro_decision_fields, h]
  refine ⟨by simp [get_field_list, hd], ?_⟩
  intro fields hcon
  simp [get_field_list, hd] at hcon

/-- Witness for C5 at `nvar = 4`. -/
theorem get_field_list_nvar_lt_five_error_witness :
    get_field_list 4 false = .error PyError.valueError :=
  (get_field_list_nvar_lt_five_error 4 (by norm_num)).1

/-- **C7**: registering the same handler twice leaves the registry with one
entry (Python `set` semantics): a second `register_field_handler` of the same
descriptor is the identity, and `get_field_handlers` then contains it. -/
theorem register_field_handler_idem (h : ClassDesc) (S : Finset ClassDesc) :
    register_field_handler h (register_field_handler h S) = register_field_handler h S ∧
    h ∈ get_field_handlers (register_field_handler h S) ∧
    (h ∉ S → (get_field_handlers (register_field_handler h S)).card = S.card + 1) := by
  refine ⟨Finset.insert_idem h S, Finset.mem_insert_self h S, ?_⟩
  intro hnot
  exact Finset.card_insert_of_not_mem hnot

/-- Witness for C7 with the concrete `HydroFieldFileHandler` descriptor and
the empty registry. -/
theorem register_field_handler_idem_witness :
    register_field_handler HydroFieldFileHandlerCls
        (register_field_handler HydroFieldFileHandlerCls ∅) =
      register_field_handler HydroFieldFileHandlerCls ∅ ∧
    HydroFieldFileHandlerCls ∈
      get_field_handlers (register_field_handler HydroFieldFileHandlerCls ∅) :=
  ⟨(register_field_handler_idem HydroFieldFileHandlerCls ∅).1,
   (register_field_handler_idem HydroFieldFileHandlerCls ∅).2.1⟩

/-- **C9**: the registering metaclass adds a class at definition time only
when its `ftype` is not `None`; hence every member of the registry has a
non-`None` `ftype`, the abstract base `FieldFileHandler` is never added,
and the concrete `HydroFieldFileHandler` is added when its body is
evaluated. -/
theorem registry_ftype_invariant :
    (∀ S : Finset ClassDesc, metaclass_new FieldFileHandlerCls S = S) ∧
    (∀ S : Finset ClassDesc,
      HydroFieldFileHandlerCls ∈ metaclass_new HydroFieldFileHandlerCls S) ∧
    (∀ S : Finset ClassDesc, (∀ c ∈ S, c.ftype ≠ none) →
      ∀ classes : List ClassDesc, ∀ c ∈ define_classes S classes, c.ftype ≠ none) := by
  refine ⟨?_, ?_, ?_⟩
  · intro S
    simp [metaclass_new, FieldFileHandlerCls]
  · intro S
    simp [metaclass_new, register_field_handler, HydroFieldFileHandlerCls]
  · intro S hS classes
    induction classes generalizing S with
    | nil => exact hS
    | cons d rest ih =>
      intro c hc
      refine ih (metaclass_new d S) ?_ c hc
      intro c' hc'
      by_cases hd : d.ftype = none
      · rw [show metaclass_new d S = S by simp [metaclass_new, hd]] at hc'
        exact hS c' hc'
      · rw [show metaclass_new d S = insert d S by
            simp [metaclass_new, register_field_handler, hd]] at hc'
        rcases Finset.mem_insert.mp hc' with h | h
        · subst h; exact hd
        · exact hS c' h

/-- Witness for C9: evaluating the two class bodies of the source module
starting from the empty registry leaves exactly `HydroFieldFileHandler`
registered, and its `ftype` is not `None`. -/
theorem registry_ftype_invariant_witness :
    define_classes ∅ [FieldFileHandlerCls, HydroFieldFileHandlerCls] =
      {HydroFieldFileHandlerCls} ∧
    HydroFieldFileHandlerCls.ftype ≠ none :=
  ⟨by decide,
   (registry_ftype_invariant.2.2 ∅ (by simp) [FieldFileHandlerCls, HydroFieldFileHandlerCls])
     HydroFieldFileHandlerCls (by decide)⟩

/-- **C6**: `RockstarStaticOutput._is_valid` returns `True` iff the candidate
path ends in `.bin` and the readable header's magic field equals
`18077126535843729616`; a wrong suffix yields `False` independently of the
file's contents (the header is never read), and a readable header with a
mismatching magic yields `False`, not an error. -/
theorem is_valid_spec (path : String) (header : RockstarHeader)
    (r : Except PyError RockstarHeader) :
    (is_valid path (.ok header) = .ok true ↔
      pyEndsWith path ".bin" = true ∧ header.magic = rockstarMagic) ∧
    (pyEndsWith path ".bin" = false → is_valid path r = .ok false) ∧
    (header.magic ≠ rockstarMagic → is_valid path (.ok header) = .ok false) := by
  refine ⟨?_, ?_, ?_⟩
  · constructor
    · intro h
      by_cases hb : pyEndsWith path ".bin" = false
      · simp [is_valid, hb] at h
      · refine ⟨by simpa using hb, ?_⟩
        by_cases hm : header.magic = rockstarMagic
        · exact hm
        · simp [is_valid, hb, hm] at h
    · rintro ⟨hb, hm⟩
      simp [is_valid, hb, hm]
  · intro hb
    simp [is_valid, hb]
  · intro hm
    by_cases hb : pyEndsWith path ".bin" = false
    · simp [is_valid, hb]
    · simp [is_valid, hb, hm]

/-- Witness for C6: a `.bin` path with the right magic is accepted; a
matching-magic file under a wrong suffix is rejected without the header being
readable at all; a `.bin` path with the wrong magic is rejected without an
error. -/
theorem is_valid_spec_witness :
    is_valid "halos_0.0.bin" (.ok ⟨rockstarMagic, 1, 3/10, 7/10, 7/10, 25⟩) = .ok true ∧
    is_valid "halos_0.0.txt" (.error PyError.valueError) = .ok false ∧
    is_valid "halos_0.0.bin" (.ok ⟨0, 1, 3/10, 7/10, 7/10, 25⟩) = .ok false :=
  ⟨(is_valid_spec "halos_0.0.bin" ⟨rockstarMagic, 1, 3/10, 7/10, 7/10, 25⟩
      (.ok ⟨rockstarMagic, 1, 3/10, 7/10, 7/10, 25⟩)).1.mpr ⟨by decide, rfl⟩,
   (is_valid_spec "halos_0.0.txt" ⟨rockstarMagic, 1, 3/10, 7/10, 7/10, 25⟩
      (.error PyError.valueError)).2.1 (by decide),
   (is_valid_spec "halos_0.0.bin" ⟨0, 1, 3/10, 7/10, 7/10, 25⟩
      (.ok ⟨0, 1, 3/10, 7/10, 7/10, 25⟩)).2.2 (by decide)⟩

/-- **C8**: after `_parse_parameter_file` on a header with scale factor `a`,
Hubble constant `h0` and densities `Om`, `Ol`, the dataset has
`current_redshift = 1/a - 1`, `hubble_constant = h0`, `omega_matter = Om`,
`omega_lambda = Ol`, and `current_time` equal to the external cosmology
collaborator's universe age, constructed from `(h0 * 100, Om, Ol)` and
evaluated at that redshift. -/
theorem parse_parameter_file_cosmology (hvals : RockstarHeader)
    (universeAge : ℚ → ℚ → ℚ → ℚ → ℚ) :
    (parse_parameter_file hvals universeAge).current_redshift = 1 / hvals.scale - 1 ∧
    (parse_parameter_file hvals universeAge).hubble_constant = hvals.h0 ∧
    (parse_parameter_file hvals universeAge).omega_matter = hvals.Om ∧
    (parse_parameter_file hvals universeAge).omega_lambda = hvals.Ol ∧
    (parse_parameter_file hvals universeAge).current_time =
      universeAge (hvals.h0 * 100) hvals.Om hvals.Ol
        (parse_parameter_file hvals universeAge).current_redshift :=
  ⟨rfl, rfl, rfl, rfl, rfl⟩

theorem varName_data (k : ℕ) : (varName k).data = 'v' :: 'a' :: 'r' :: (pyStr k).data := rfl

theorem varName_injective : Function.Injective varName := by
  intro j k h
  have h1 : (varName j).data = (varName k).data := by rw [h]
  rw [varName_data, varName_data] at h1
  simp only [List.cons.injEq, true_and] at h1
  exact pyStr_injective (String.ext h1)

theorem pad_fields_nodup (base : List String) (nvar : ℕ) (h1 : base.Nodup)
    (h2 : ∀ s ∈ base, s.data.head? ≠ some 'v') : (pad_fields base nvar).Nodup := by
  rw [pad_fields_eq]
  refine List.Nodup.append h1 ?_ ?_
  · exact List.Nodup.map varName_injective (List.nodup_range' _ _)
  · intro a ha hamem
    obtain ⟨k, _, rfl⟩ := List.mem_map.mp hamem
    exact h2 _ ha (by rw [varName_data]; rfl)

/-- **C10**: whenever `get_field_list` returns a list, its entries are
pairwise distinct: each decision-table list is duplicate-free, and padding
names `var<k>` (with `k` the current length) collide neither with each other
nor with any physics field name. -/
theorem get_field_list_nodup (nvar : ℕ) (rt_flag : Bool) (fields : List String)
    (h : get_field_list nvar rt_flag = .ok fields) : fields.Nodup := by
  cases hd : hydro_decision_fields nvar rt_flag with
  | error e => simp [get_field_list, hd] at h
  | ok base =>
    have hfields : fields = pad_fields base nvar := by
      simp only [get_field_list, hd, Except.ok.injEq] at h
      exact h.symm
    subst hfields
    have hb : base.Nodup ∧ ∀ s ∈ base, s.data.head? ≠ some 'v' := by
      unfold hydro_decision_fields at hd
      split_ifs at hd <;>
        first
        | exact Except.noConfusion hd
        | (injection hd with hinj
           subst hinj
           exact ⟨by decide, by decide⟩)
    exact pad_fields_nodup base nvar hb.1 hb.2

/-- Witness for C10 at `nvar = 7` without RT: the returned 7-element list,
including the padding name `var6`, is duplicate-free. -/
theorem get_field_list_nodup_witness :
    get_field_list 7 false =
      .ok ["Density", "x-velocity", "y-velocity", "z-velocity", "Pressure",
           "Metallicity", "var6"] ∧
    (["Density", "x-velocity", "y-velocity", "z-velocity", "Pressure",
      "Metallicity", "var6"] : List String).Nodup := by
  have hpad : pad_fields ["Density", "x-velocity", "y-velocity", "z-velocity", "Pressure",
      "Metallicity"] 7 = ["Density", "x-velocity", "y-velocity", "z-velocity", "Pressure",
      "Metallicity", "var6"] := by
    rw [pad_fields_eq]
    decide
  have h : get_field_list 7 false =
      .ok ["Density", "x-velocity", "y-velocity", "z-velocity", "Pressure",
           "Metallicity", "var6"] := by
    show Except.ok (pad_fields ["Density", "x-velocity", "y-velocity", "z-velocity", "Pressure",
        "Metallicity"] 7) = _
    rw [hpad]
  exact ⟨h, get_field_list_nodup 7 false _ h⟩

theorem hydroGlobPat_data :
    hydroGlobPat.data = ['h', 'y', 'd', 'r', 'o', '_', '?', '?', '?', '?', '?',
      '.', 'o', 'u', 't', '?', '?', '?', '?', '?'] := rfl

theorem pyStr_length_le_five (n : ℕ) (h : n < 100000) : (pyStr n).length ≤ 5 := by
  by_cases h0 : n = 0
  · subst h0; decide
  · have : (pyStr n).length = (digitsAux n n).length := by
      simp only [pyStr, if_neg h0]
      show ((pyDigits n).reverse.map Nat.digitChar).length = _
      rw [List.length_map, List.length_reverse]
      rfl
    rw [this]
    exact digitsAux_length_le n n 5 (by norm_num; omega)

theorem pyStr_chars_ne_slash (n : ℕ) : ∀ c ∈ (pyStr n).data, c ≠ '/' := by
  by_cases h0 : n = 0
  · subst h0; decide
  · intro c hc
    have hc' : c ∈ (pyDigits n).reverse.map Nat.digitChar := by
      simpa only [pyStr, if_neg h0] using hc
    obtain ⟨d, hd, rfl⟩ := List.mem_map.mp hc'
    have hd10 : d < 10 := digitsAux_lt_ten n n d (List.mem_reverse.mp hd)
    have : ∀ d < 10, Nat.digitChar d ≠ '/' := by decide
    exact this d hd10

theorem fmt5_data (n : ℕ) :
    (fmt5 n).data = List.replicate (5 - (pyStr n).length) '0' ++ (pyStr n).data := rfl

theorem fmt5_length (n : ℕ) (h : n < 100000) : (fmt5 n).data.length = 5 := by
  rw [fmt5_data, List.length_append, List.length_replicate]
  have h1 := pyStr_length_le_five n h
  have h2 : (pyStr n).data.length = (pyStr n).length := rfl
  omega

theorem fmt5_chars_ne_slash (n : ℕ) : ∀ c ∈ (fmt5 n).data, c ≠ '/' := by
  rw [fmt5_data]
  intro c hc
  rcases List.mem_append.mp hc with h | h
  · rw [List.eq_of_mem_replicate h]
    decide
  · exact pyStr_chars_ne_slash n c h

theorem globMatch_hydro_shape (a b : List Char) (ha : a.length = 5) (hb : b.length = 5)
    (ha' : ∀ c ∈ a, c ≠ '/') (hb' : ∀ c ∈ b, c ≠ '/') :
    globMatch hydroGlobPat.data
      ('h' :: 'y' :: 'd' :: 'r' :: 'o' :: '_' ::
        (a ++ ('.' :: 'o' :: 'u' :: 't' :: b))) = true := by
  obtain ⟨a0, a1, a2, a3, a4, rfl⟩ : ∃ x0 x1 x2 x3 x4, a = [x0, x1, x2, x3, x4] := by
    rcases a with _ | ⟨x0, a⟩; · simp at ha
    rcases a with _ | ⟨x1, a⟩; · simp at ha
    rcases a with _ | ⟨x2, a⟩; · simp at ha
    rcases a with _ | ⟨x3, a⟩; · simp at ha
    rcases a with _ | ⟨x4, a⟩; · simp at ha
    rcases a with _ | ⟨x5, a⟩
    · exact ⟨x0, x1, x2, x3, x4, rfl⟩
    · simp at ha
  obtain ⟨b0, b1, b2, b3, b4, rfl⟩ : ∃ x0 x1 x2 x3 x4, b = [x0, x1, x2, x3, x4] := by
    rcases b with _ | ⟨x0, b⟩; · simp at hb
    rcases b with _ | ⟨x1, b⟩; · simp at hb
    rcases b with _ | ⟨x2, b⟩; · simp at hb
    rcases b with _ | ⟨x3, b⟩; · simp at hb
    rcases b with _ | ⟨x4, b⟩; · simp at hb
    rcases b with _ | ⟨x5, b⟩
    · exact ⟨x0, x1, x2, x3, x4, rfl⟩
    · simp at hb
  have ea0 : a0 ≠ '/' := ha' _ (by simp)
  have ea1 : a1 ≠ '/' := ha' _ (by simp)
  have ea2 : a2 ≠ '/' := ha' _ (by simp)
  have ea3 : a3 ≠ '/' := ha' _ (by simp)
  have ea4 : a4 ≠ '/' := ha' _ (by simp)
  have eb0 : b0 ≠ '/' := hb' _ (by simp)
  have eb1 : b1 ≠ '/' := hb' _ (by simp)
  have eb2 : b2 ≠ '/' := hb' _ (by simp)
  have eb3 : b3 ≠ '/' := hb' _ (by simp)
  have eb4 : b4 ≠ '/' := hb' _ (by simp)
  simp [hydroGlobPat_data, globMatch, ea0, ea1, ea2, ea3, ea4, eb0, eb1, eb2, eb3, eb4]

theorem globMatch_hydro_style_name (iout icpu : ℕ) (h1 : iout < 100000) (h2 : icpu < 100000) :
    globMatch hydroGlobPat.data (hydro_style_name iout icpu).data = true := by
  have hd : (hydro_style_name iout icpu).data
      = 'h' :: 'y' :: 'd' :: 'r' :: 'o' :: '_' ::
          ((fmt5 iout).data ++ ('.' :: 'o' :: 'u' :: 't' :: (fmt5 icpu).data)) := by
    simp only [hydro_style_name, String.data_append, List.append_assoc]
    rfl
  rw [hd]
  exact globMatch_hydro_shape _ _ (fmt5_length _ h1) (fmt5_length _ h2)
    (fmt5_chars_ne_slash _) (fmt5_chars_ne_slash _)

theorem globMatch_hydro_fname_false (iout icpu : ℕ) :
    globMatch hydroGlobPat.data (hydro_fname iout icpu).data = false := by
  have hd : (hydro_fname iout icpu).data
      = 'p' :: 'a' :: 'r' :: 't' :: '_' ::
          ((fmt5 iout).data ++ ('.' :: 'o' :: 'u' :: 't' :: (fmt5 icpu).data)) := by
    simp only [hydro_fname, String.data_append, List.append_assoc]
    rfl
  rw [hd, hydroGlobPat_data]
  simp [globMatch]

/-- **Counterexample for C4**: the dataset directory holding exactly the file
that `__init__` resolves from the class's `fname` template for `iout = 1`,
domain 1 — namely `part_00001.out00001` — falsifies the claim: a file of
"this kind" (per the `fname` template) is present, yet `any_exist` is false,
because `any_exist` globs for `hydro_?????.out?????`. -/
theorem any_exist_fname_counterexample :
    hydro_fname 1 1 = "part_00001.out00001" ∧
    any_exist ["part_00001.out00001"] = false ∧
    ¬ (any_exist ["part_00001.out00001"] = true ↔
        ∃ icpu, hydro_fname 1 icpu ∈ ["part_00001.out00001"]) := by
  refine ⟨by decide, by decide, ?_⟩
  intro h
  have htrue : any_exist ["part_00001.out00001"] = true := h.mpr ⟨1, by decide⟩
  exact absurd htrue (by decide)

/-- **C4 (amended)**: `any_exist` is true iff at least one file in the
dataset directory matches the glob `hydro_?????.out?????`; every hydro-style
per-domain name `hydro_{iout:05d}.out{icpu:05d}` (with `iout, icpu < 10^5`)
matches that glob, while the names resolved from the class's `fname` template
`part_{iout:05d}.out{icpu:05d}` never match it — so files of the template
kind alone never make `any_exist` true. -/
theorem any_exist_glob_spec (files : List String) :
    (any_exist files = true ↔ ∃ f ∈ files, globMatch hydroGlobPat.data f.data = true) ∧
    (∀ iout icpu : ℕ, iout < 100000 → icpu < 100000 →
      hydro_style_name iout icpu ∈ files → any_exist files = true) ∧
    (∀ iout icpu : ℕ, globMatch hydroGlobPat.data (hydro_fname iout icpu).data = false) := by
  refine ⟨List.any_eq_true, ?_, ?_⟩
  · intro iout icpu h1 h2 hmem
    exact List.any_eq_true.mpr ⟨_, hmem, globMatch_hydro_style_name iout icpu h1 h2⟩
  · intro iout icpu
    exact globMatch_hydro_fname_false iout icpu

/-- Witness for the amended C4: a directory containing
`hydro_00001.out00001` makes `any_exist` true, and the `fname`-template name
for `iout = 2, icpu = 3` does not match the glob. -/
theorem any_exist_glob_spec_witness :
    any_exist ["hydro_00001.out00001"] = true ∧
    globMatch hydroGlobPat.data (hydro_fname 2 3).data = false := by
  have h := any_exist_glob_spec ["hydro_00001.out00001"]
  refine ⟨?_, h.2.2 2 3⟩
  apply h.2.1 1 1 (by norm_num) (by norm_num)
  show hydro_style_name 1 1 ∈ _
  decide
